import Mathlib

/-!
Verification development for a 2D physics-platformer runtime core.

The definitions below are a shallow embedding of the game's systems:
the character controller (movement / jump / duck), the kinematic slider
platforms, the checkpoint system, the level generator and the
session-level save/restore state machine.  Positions and velocities are
modelled as exact rationals; entity-component storage is modelled as
explicit record fields and lists.
-/

/-- A 2D vector with rational coordinates (models `Vec2`). -/
structure Vec2 where
  x : ℚ
  y : ℚ
deriving DecidableEq, Repr

/-- The zero vector (models `Vec2::ZERO` / `Vec3::ZERO`). -/
def Vec2.zero : Vec2 := ⟨0, 0⟩

/-- Player sprite size: `PLAYER_SIZE = Vec2::new(20., 40.)` (main.rs). -/
def PLAYER_SIZE : Vec2 := ⟨20, 40⟩

/- ## Character controller (character_controller.rs) -/

/-- Movement actions sent by the input adapter (`MovementAction`). -/
inductive MovementAction
| move (dir : ℚ)
| jump
deriving DecidableEq

/-- Controller state read and written by the `movement` system:
linear velocity plus the `Grounded` / `Ducking` marker components. -/
structure CtrlState where
  vx : ℚ
  vy : ℚ
  grounded : Bool
  ducking : Bool
deriving DecidableEq, Repr

/-- The `movement` system (character_controller.rs, lines 185-210), applied
to a single event for a single controller.
`Move(dir)` reassigns horizontal velocity to `dir * speed * dt`;
`Jump` sets vertical velocity to the jump impulse only when grounded and
not ducking, and otherwise leaves the state unchanged. -/
def movement (speed jump_impulse dt : ℚ) (a : MovementAction) (s : CtrlState) :
    CtrlState :=
  match a with
  | .move dir => { s with vx := dir * speed * dt }
  | .jump => if s.grounded && !s.ducking then { s with vy := jump_impulse } else s

/-- State touched by the `update_ducking` system: the transform's vertical
scale, the collider's (physics-synced) vertical scale, the transform's
vertical origin, and the `Ducking` marker. -/
structure DuckState where
  scaleY : ℚ
  colliderScaleY : ℚ
  y : ℚ
  ducking : Bool
deriving DecidableEq, Repr

/-- Height of the player collider's AABB.  The player collider is
`Collider::capsule(10., 20.)`, whose unscaled AABB height is
`20 + 2 * 10 = 40`; the AABB scales with the collider's current scale. -/
def colliderHeight (s : DuckState) : ℚ := 40 * s.colliderScaleY

/-- The `update_ducking` system (character_controller.rs, lines 137-183) for
one controller on one tick.  `duckPressed` is whether a duck key is held;
`standCastHit` is whether the upward headroom shape-cast returned a hit.
Ducking halves the transform's vertical scale and lowers the origin by a
quarter of the collider height (still the standing height, since the
collider scale is only synced to the transform scale by the physics step
after this system runs); standing restores the scale and raises the
origin by half the (now halved) collider height. -/
def update_ducking (duckPressed standCastHit : Bool) (s : DuckState) : DuckState :=
  if duckPressed then
    if !s.ducking then
      let s1 := { s with ducking := true, scaleY := 1/2 }
      { s1 with y := s1.y - colliderHeight s1 / 4 }
    else s
  else if s.ducking then
    if standCastHit then s
    else
      let s1 := { s with ducking := false, scaleY := 1 }
      { s1 with y := s1.y + colliderHeight s1 / 2 }
  else s

/-- The physics engine's transform-to-collider scale synchronization,
which runs between gameplay ticks. -/
def sync_collider_scale (s : DuckState) : DuckState :=
  { s with colliderScaleY := s.scaleY }

/- ## Moving platforms (main.rs `moving_platform_system`, levels/mod.rs) -/

/-- Rigid body kinds of the physics engine. -/
inductive RigidBodyKind
| dynamic
| kinematic
| staticBody
deriving DecidableEq, Repr

/-- A non-platform rigid body visible to `moving_platform_system`
(the `rigid_bodies` query, `Without<MovingPlatform>`): an entity id, the
body kind, and its transform translation. -/
structure Body where
  id : ℕ
  rb : RigidBodyKind
  pos : Vec2
deriving DecidableEq, Repr

/-- Mutable state of a moving platform (`MovingPlatform`, levels/mod.rs
lines 114-120). -/
structure MovingPlatform where
  active : Bool
  t : ℚ
  movingBackward : Bool
deriving DecidableEq, Repr

/-- `MovingPlatform::default()`: inactive, `t = 0`, moving forward. -/
def MovingPlatform.start : MovingPlatform := ⟨false, 0, false⟩

/-- Parameters of `MovingPlatformType::Slider`.  In the source
`delta_t_per_second = speed / a.distance(b)` is computed once at
construction; it is kept here as an independent rational field since the
Euclidean distance need not be rational. -/
structure Slider where
  a : Vec2
  b : Vec2
  speed : ℚ
  deltaTPerSecond : ℚ
deriving DecidableEq, Repr

/-- Rust `f32::clamp(lo, hi)`: `max` then `min`. -/
def clampQ (x lo hi : ℚ) : ℚ := min (max x lo) hi

/-- `Vec3::lerp` restricted to the plane: `a + (b - a) * t`. -/
def lerp (a b : Vec2) (t : ℚ) : Vec2 :=
  ⟨a.x + (b.x - a.x) * t, a.y + (b.y - a.y) * t⟩

/-- The carrying loop of `moving_platform_system` (main.rs lines 581-589):
for each entity id in the platform's `CollidingEntities`, if a queried
rigid body with that id exists and is dynamic, its horizontal position is
advanced by `speed * dt * sign`. -/
def nudgeBodies (speed dt sign : ℚ) (contacts : List ℕ) (bodies : List Body) :
    List Body :=
  contacts.foldl
    (fun bs eid =>
      bs.map (fun b =>
        if b.id = eid ∧ b.rb = RigidBodyKind.dynamic then
          { b with pos := ⟨b.pos.x + speed * dt * sign, b.pos.y⟩ }
        else b))
    bodies

/-- One iteration of the platform loop in `moving_platform_system`
(main.rs lines 547-599) for a single slider platform: contact-based
activation, progress update with clamping, position interpolation, the
rider nudge, and the end-of-range direction update. -/
def moving_platform_system (sl : Slider) (dt : ℚ) (contacts : List ℕ)
    (pl : MovingPlatform) (pos : Vec2) (bodies : List Body) :
    MovingPlatform × Vec2 × List Body :=
  let pl := if !contacts.isEmpty then { pl with active := true } else pl
  if !pl.active then (pl, pos, bodies)
  else
    let sign : ℚ := if pl.movingBackward then -1 else 1
    let t := clampQ (pl.t + sl.deltaTPerSecond * dt * sign) 0 1
    let newPos := lerp sl.a sl.b t
    let bodies := nudgeBodies sl.speed dt sign contacts bodies
    let pl := { pl with t := t }
    let pl :=
      if 1 ≤ t then { pl with movingBackward := true }
      else if t ≤ 0 then { pl with movingBackward := false }
      else pl
    (pl, newPos, bodies)

/-- A tick's input to a platform, as far as its own kinematic state is
concerned: the tick delta and whether any entity is in contact. -/
def platform_tick (sl : Slider) (i : ℚ × Bool) (pl : MovingPlatform) :
    MovingPlatform :=
  (moving_platform_system sl i.1 (if i.2 then [0] else []) pl Vec2.zero []).1

/-- Iterated platform kinematics over a list of ticks. -/
def run_platform (sl : Slider) : List (ℚ × Bool) → MovingPlatform → MovingPlatform
  | [], pl => pl
  | i :: rest, pl => run_platform sl rest (platform_tick sl i pl)

/- ## Checkpoint system (main.rs `checkpoint_system`, lines 601-643) -/

/-- One checkpoint entity as seen by `checkpoint_system`: its transform
translation, its `Checkpoint::active` flag, whether it currently displays
the active material, and whether the player is among its colliding
entities this tick. -/
structure CpEntry where
  pos : Vec2
  active : Bool
  activeMaterial : Bool
  touched : Bool
deriving DecidableEq, Repr

/-- The first loop of `checkpoint_system`: deactivate every previously
active checkpoint (remembering the first one), record the last
player-touched checkpoint, and emit a save event for every touched
checkpoint that was not already active.  `i` is the index of the first
list element; the result is the rewritten list, the chosen active
checkpoint index, and the accumulated save-event positions. -/
def cpPass : List CpEntry → ℕ → Option ℕ → List Vec2 →
    List CpEntry × Option ℕ × List Vec2
  | [], _, act, evs => ([], act, evs)
  | e :: es, i, act, evs =>
    let isActive := e.active
    let e' := if e.active then { e with active := false, activeMaterial := false }
              else e
    let act1 := if e.active ∧ act = none then some i else act
    let act2 := if e.touched then some i else act1
    let evs' := if e.touched ∧ !isActive then
        evs ++ [⟨e.pos.x, e.pos.y + PLAYER_SIZE.y⟩]
      else evs
    let r := cpPass es (i + 1) act2 evs'
    (e' :: r.1, r.2)

/-- The final step of `checkpoint_system`: mark the checkpoint at the
given index active (flag and material). -/
def activate : List CpEntry → ℕ → List CpEntry
  | [], _ => []
  | e :: es, 0 => { e with active := true, activeMaterial := true } :: es
  | e :: es, n + 1 => e :: activate es n

/-- The `checkpoint_system` (main.rs lines 601-643) over the full list of
checkpoints (the player is assumed present; `touched` records contact
with the player entity).  Returns the updated checkpoints and the
positions carried by the emitted `CheckpointSaveEvent`s. -/
def checkpoint_system (cps : List CpEntry) : List CpEntry × List Vec2 :=
  let r := cpPass cps 0 none []
  match r.2.1 with
  | none => (r.1, r.2.2)
  | some i => (activate r.1 i, r.2.2)

/-- Number of checkpoints whose active flag is set. -/
def countActive (cps : List CpEntry) : ℕ :=
  (cps.filter (fun e => e.active)).length

/-- The effect of the first loop of `checkpoint_system` on a single
checkpoint entry. -/
def clearCp (e : CpEntry) : CpEntry :=
  if e.active then { e with active := false, activeMaterial := false } else e

/- ## Level generator (levels/mod.rs) -/

/-- Entities spawned by `LevelGenerator`.  Children of the `LevelRoot`
(the ephemeral set) are the level text, plain platforms, slider platforms
and the level-end door; spikes and checkpoints are spawned outside the
root (the permanent set). -/
inductive Entity
| levelText (index : ℕ)
| platform (center : Vec2) (size : ℚ)
| sliderPlatform (a b : Vec2) (size speed : ℚ)
| spike (pos : Vec2) (group : Option ℕ)
| checkpoint (pos : Vec2) (active : Bool)
| ending (pos : Vec2)
deriving DecidableEq, Repr

/-- The primitive build operations a level script may invoke
(levels/mod.rs, `LevelGenerator` methods). -/
inductive GenOp
| platform (pos : Vec2) (size : ℚ)
| sliderPlatform (a b : Vec2) (size speed : ℚ)
| spike (pos : Vec2)
| spikeGroup (startX endX y : ℚ)
| checkpoint (pos : Vec2)
| ending (pos : Vec2)
deriving DecidableEq, Repr

/-- Rust float truncation toward zero, on rationals. -/
def rustTrunc (q : ℚ) : ℤ := if 0 ≤ q then ⌊q⌋ else -⌊-q⌋

/-- Rust float remainder `a % b` (truncated division, sign of `a`). -/
def rustRem (a b : ℚ) : ℚ := a - b * (rustTrunc (a / b) : ℚ)

/-- Spike x-coordinates produced by the `spike_group` while loop
(levels/mod.rs lines 417-430): the first spike sits at
`((end_x - start_x) % SPIKE_SIZE.x) / 2 + start_x` and successive spikes
are `SPIKE_SIZE.x = 24` apart while the coordinate stays `≤ end_x`. -/
def spikeGroupPositions (startX endX : ℚ) : List ℚ :=
  let x0 := rustRem (endX - startX) 24 / 2 + startX
  let n : ℕ := if x0 ≤ endX then (⌊(endX - x0) / 24⌋).toNat + 1 else 0
  (List.range n).map (fun i => x0 + 24 * i)

/-- Accumulator of a level generation run: the `LevelRoot` children, the
permanent (outside-the-root) entities, and `current_spike_group`. -/
structure GenAcc where
  children : List Entity
  permanents : List Entity
  spikeGroupCounter : ℕ
deriving DecidableEq, Repr

/-- Effect of one build operation (levels/mod.rs lines 376-484).
`enablePermanent` is the generator's `enable_permanent_entities` flag:
when it is false, `spike`, `spike_group` and `checkpoint` return without
spawning (and without advancing the group counter).
`PlatformBundle::new` anchors a platform at its left edge, so its sprite
center is `(pos.x + size / 2, pos.y)`; the door center is raised by
`DOOR_SIZE.y / 2 = 25`. -/
def applyOp (enablePermanent : Bool) (acc : GenAcc) (op : GenOp) : GenAcc :=
  match op with
  | .platform pos size =>
      { acc with children :=
          acc.children ++ [Entity.platform ⟨pos.x + size / 2, pos.y⟩ size] }
  | .sliderPlatform a b size speed =>
      { acc with children :=
          acc.children ++ [Entity.sliderPlatform ⟨a.x + size / 2, a.y⟩
            ⟨b.x + size / 2, b.y⟩ size speed] }
  | .spike pos =>
      if enablePermanent then
        { acc with permanents := acc.permanents ++ [Entity.spike pos none] }
      else acc
  | .spikeGroup startX endX y =>
      if enablePermanent then
        { acc with
          permanents := acc.permanents ++
            (spikeGroupPositions startX endX).map
              (fun x => Entity.spike ⟨x, y⟩ (some acc.spikeGroupCounter)),
          spikeGroupCounter := acc.spikeGroupCounter + 1 }
      else acc
  | .checkpoint pos =>
      if enablePermanent then
        { acc with permanents := acc.permanents ++ [Entity.checkpoint pos false] }
      else acc
  | .ending pos =>
      { acc with children := acc.children ++ [Entity.ending ⟨pos.x, pos.y + 25⟩] }

namespace LevelGenerator

/-- Running a level script (levels/mod.rs `setup_level` /
`setup_level_without_permanent_entities`): the level text is spawned
first as a root child, then the script's operations run in order.
Returns the root children and the permanent entities. -/
def generate (enablePermanent : Bool) (index : ℕ) (ops : List GenOp) :
    List Entity × List Entity :=
  let acc := ops.foldl (applyOp enablePermanent)
    ⟨[Entity.levelText index], [], 0⟩
  (acc.children, acc.permanents)

end LevelGenerator

/-- The level-0 script (levels/level0.rs). -/
def level0Ops : List GenOp :=
  [ .platform ⟨-500, -30⟩ 1000,
    .platform ⟨-400, 0⟩ 200,
    .spike ⟨100, -30⟩,
    .checkpoint ⟨200, -30⟩,
    .checkpoint ⟨300, -30⟩,
    .sliderPlatform ⟨550, -30⟩ ⟨950, -30⟩ 200 250,
    .platform ⟨1200, 0⟩ 400,
    .ending ⟨1500, 0⟩,
    .spikeGroup (-600) (-500) (-100),
    .spikeGroup 550 950 (-100),
    .spikeGroup (-30) 10 (-500) ]

/-- The level-1 script (levels/level1.rs). -/
def level1Ops : List GenOp :=
  [ .platform ⟨-500, -30⟩ 1000,
    .sliderPlatform ⟨550, -30⟩ ⟨1050, -30⟩ 200 250,
    .checkpoint ⟨200, -30⟩ ]

/-- The closed set of level scripts (`LevelGenerator::setup_level`'s
`match idx`): indices 0 and 1; any other index is a fatal error
(modelled as `none`). -/
def levelScript : ℕ → Option (List GenOp)
  | 0 => some level0Ops
  | 1 => some level1Ops
  | _ => none

/- ## Session state machine (main.rs) -/

/-- Game state (`GameState`).  `MainMenu` and `LevelSelect` are merged
into `menu`: no system relevant to the claims distinguishes them. -/
inductive GState
| menu
| level (index : ℕ) (paused : Bool)
deriving DecidableEq, Repr

/-- The player entity's fields used by `setup_level_content`: transform
translation and the optional `LinearVelocity` component. -/
structure PlayerState where
  pos : Vec2
  vel : Option Vec2
deriving DecidableEq, Repr

/-- The `SaveData` resource: the dynamic-scene snapshot of the level
root's children and the saved respawn position. -/
structure Save where
  scene : List Entity
  position : Vec2
deriving DecidableEq, Repr

/-- The `LevelRestartEvent`. -/
inductive LevelRestartEvent
| restoreLastSave
| fullReset (index : ℕ)
deriving DecidableEq, Repr

/-- The game world as far as the session-level claims observe it:
game state, the `LevelStopwatch` resource (absent outside a level), the
`DeathCounter` resource, the `SaveData` resource, the `LevelRoot` subtree
(children), the permanent spike/checkpoint entities, and the player. -/
structure GameWorld where
  gs : GState
  stopwatch : Option ℚ
  deaths : ℕ
  saveData : Option Save
  root : Option (List Entity)
  permanents : List Entity
  player : Option PlayerState
deriving DecidableEq, Repr

/-- The `setup_level_content` system (main.rs lines 329-412) handling one
`LevelRestartEvent`.  The existing level root is despawned; the player's
velocity (when the component exists) is zeroed; then `RestoreLastSave`
spawns a fresh root and either reinstates the snapshot at the saved
position or, with no save, regenerates the level without permanent
entities at the origin, while `FullReset(i)` despawns all spikes and
checkpoints and regenerates level `i` in full at the origin.  `none`
models a panic (missing player singleton or an invalid level index). -/
def setup_level_content (ev : LevelRestartEvent) (w : GameWorld) :
    Option GameWorld :=
  match w.player with
  | none => none
  | some p =>
    let p1 : PlayerState := { p with vel := p.vel.map (fun _ => Vec2.zero) }
    match ev with
    | .restoreLastSave =>
      match w.saveData with
      | some sd =>
          some { w with
                 player := some { p1 with pos := sd.position },
                 root := some sd.scene }
      | none =>
        match w.gs with
        | .menu =>
            some { w with
                   player := some { p1 with pos := Vec2.zero },
                   root := some [] }
        | .level idx _ =>
          match levelScript idx with
          | none => none
          | some ops =>
            let g := LevelGenerator.generate false idx ops
            some { w with
                   player := some { p1 with pos := Vec2.zero },
                   root := some g.1,
                   permanents := w.permanents ++ g.2 }
    | .fullReset idx =>
      match levelScript idx with
      | none => none
      | some ops =>
        let g := LevelGenerator.generate true idx ops
        some { w with
               player := some { p1 with pos := Vec2.zero },
               root := some g.1,
               permanents := g.2 }

/-- The session-level transitions the claims are about.  Each step is one
frame's worth of the systems that fire for that occasion. -/
inductive Step
| enterLevel (index : ℕ)
| tick (dt : ℚ)
| checkpointSave (pos : Vec2)
| death
| restoreKey
| complete
| pauseToggle
| exitLevel
deriving DecidableEq, Repr

/-- One session transition.
`enterLevel`: `OnEnter(InLevel)`'s `setup_level` (spawn player, insert a
fresh `LevelStopwatch`, emit `FullReset(index)`) followed by
`setup_level_content` handling the event.
`tick`: `update_hud` ticking the stopwatch by a nonnegative delta.
`checkpointSave`: `create_save`/`store_save` snapshotting the root's
children at a save position (requires a level root).
`death`: `death_condition` emitting `DeathEvent` and `RestoreLastSave`,
`setup_level_content` handling it, `update_death_counter` incrementing.
`restoreKey`: `checkpoint_load` emitting `RestoreLastSave`, handled.
`complete`: `on_level_completed` (advance the level index, reset the
stopwatch and death counter, `remove_save`) followed by
`setup_level_content` handling `FullReset(index + 1)`.
`pauseToggle`: `pause_system` flipping `paused` in place.
`exitLevel`: `OnExit(InLevel)`'s `cleanup_level`, `cleanup_level_content`
and `remove_save` (despawn the player, HUD and stopwatch, the root and
all spikes/checkpoints, and drop `SaveData`).
Update-schedule steps require the unpaused in-level state; `none` models
a step whose run condition or singleton query fails, or a panic. -/
def step : Step → GameWorld → Option GameWorld
  | .enterLevel idx, w =>
    match w.gs with
    | .menu =>
        setup_level_content (.fullReset idx)
          { w with
            gs := .level idx false,
            player := some ⟨Vec2.zero, some Vec2.zero⟩,
            stopwatch := some 0 }
    | .level _ _ => none
  | .tick dt, w =>
    match w.gs, w.stopwatch with
    | .level _ false, some q =>
        if 0 ≤ dt then some { w with stopwatch := some (q + dt) } else none
    | _, _ => none
  | .checkpointSave pos, w =>
    match w.gs, w.root with
    | .level _ false, some scene =>
        some { w with saveData := some ⟨scene, pos⟩ }
    | _, _ => none
  | .death, w =>
    match w.gs with
    | .level _ false =>
        (setup_level_content .restoreLastSave w).map
          (fun w' => { w' with deaths := w'.deaths + 1 })
    | _ => none
  | .restoreKey, w =>
    match w.gs with
    | .level _ false => setup_level_content .restoreLastSave w
    | _ => none
  | .complete, w =>
    match w.gs, w.stopwatch with
    | .level idx false, some _ =>
        setup_level_content (.fullReset (idx + 1))
          { w with
            gs := .level (idx + 1) false,
            stopwatch := some 0,
            deaths := 0,
            saveData := none }
    | _, _ => none
  | .pauseToggle, w =>
    match w.gs with
    | .level idx p => some { w with gs := .level idx (!p) }
    | .menu => none
  | .exitLevel, w =>
    match w.gs with
    | .level _ _ =>
        some { w with
               gs := .menu,
               stopwatch := none,
               saveData := none,
               root := none,
               permanents := [],
               player := none }
    | .menu => none

/-- The world at program start: main menu, a zeroed stopwatch
(`init_resource::<LevelStopwatch>`), a zeroed death counter, no save, no
level content, no player. -/
def initWorld : GameWorld :=
  ⟨.menu, some 0, 0, none, none, [], none⟩

/-- The session states reachable from program start. -/
inductive Reachable : GameWorld → Prop
| init : Reachable initWorld
| next (s s' : GameWorld) (st : Step) :
    Reachable s → step st s = some s' → Reachable s'

/- ## Theorems -/

/-- C9: for every tick and every `Jump` event, the player's vertical
velocity is set to the jump impulse exactly when the grounded flag is set
and the ducking flag is not; in every other state the event leaves the
vertical velocity unchanged, and a `Jump` event never changes the
horizontal velocity. -/
theorem jump_sets_vertical_velocity_iff_grounded_not_ducking
    (speed ji dt : ℚ) (s : CtrlState) :
    (movement speed ji dt .jump s).vy =
      (if s.grounded && !s.ducking then ji else s.vy) ∧
    (movement speed ji dt .jump s).vx = s.vx := by
  constructor <;> · simp only [movement]; split <;> rfl

/-- C5: starting from any standing state (not ducking, unit transform and
collider scale), ducking and then standing with clear headroom (the
upward shape-cast reports no hit) restores the collider scale and the
entity origin exactly to their pre-duck values. -/
theorem duck_stand_round_trip (s : DuckState) (hd : s.ducking = false)
    (hsc : s.scaleY = 1) (hcs : s.colliderScaleY = 1) :
    sync_collider_scale (update_ducking false false
      (sync_collider_scale (update_ducking true false s))) = s := by
  obtain ⟨sc, cs, y, d⟩ := s
  simp only at hd hsc hcs
  subst hd; subst hsc; subst hcs
  simp [update_ducking, sync_collider_scale, colliderHeight]
  norm_num

/-- C5 witness: the round trip at a concrete standing state. -/
theorem duck_stand_round_trip_witness :
    sync_collider_scale (update_ducking false false
      (sync_collider_scale (update_ducking true false ⟨1, 1, 0, false⟩))) =
      (⟨1, 1, 0, false⟩ : DuckState) :=
  duck_stand_round_trip ⟨1, 1, 0, false⟩ rfl rfl rfl

/-- The clamp used by the platform keeps its value inside `[0,1]`. -/
theorem clampQ_mem (x : ℚ) : 0 ≤ clampQ x 0 1 ∧ clampQ x 0 1 ≤ 1 :=
  ⟨le_min (le_max_right _ _) zero_le_one, min_le_right _ _⟩

/-- The movement sign of a platform this tick (before the direction
update at the end of the tick). -/
def slider_sign (pl : MovingPlatform) : ℚ := if pl.movingBackward then -1 else 1

/-- The clamped progress value a platform reaches this tick. -/
def slider_t_next (sl : Slider) (dt : ℚ) (pl : MovingPlatform) : ℚ :=
  clampQ (pl.t + sl.deltaTPerSecond * dt * slider_sign pl) 0 1

/-- Evaluation of `moving_platform_system` on an idle platform with no
contacts: nothing changes. -/
theorem moving_platform_system_inactive (sl : Slider) (dt : ℚ)
    (contacts : List ℕ) (pl : MovingPlatform) (pos : Vec2) (bodies : List Body)
    (ha : pl.active = false) (hc : contacts.isEmpty = true) :
    moving_platform_system sl dt contacts pl pos bodies = (pl, pos, bodies) := by
  obtain ⟨a, t0, mb⟩ := pl
  cases a
  · simp [moving_platform_system, hc]
  · simp at ha

/-- Evaluation of `moving_platform_system` on a platform that is active
(or becomes active through a contact this tick). -/
theorem moving_platform_system_active (sl : Slider) (dt : ℚ)
    (contacts : List ℕ) (pl : MovingPlatform) (pos : Vec2) (bodies : List Body)
    (h : pl.active = true ∨ contacts.isEmpty = false) :
    moving_platform_system sl dt contacts pl pos bodies =
      (⟨true, slider_t_next sl dt pl,
        if 1 ≤ slider_t_next sl dt pl then true
        else if slider_t_next sl dt pl ≤ 0 then false else pl.movingBackward⟩,
       lerp sl.a sl.b (slider_t_next sl dt pl),
       nudgeBodies sl.speed dt (slider_sign pl) contacts bodies) := by
  obtain ⟨a, t0, mb⟩ := pl
  cases a <;> cases hc : contacts.isEmpty <;>
    simp_all [moving_platform_system, slider_t_next, slider_sign] <;>
    split_ifs <;> simp_all

/-- A platform tick keeps `t` inside `[0,1]` if it starts there. -/
theorem platform_tick_t_bounds (sl : Slider) (i : ℚ × Bool)
    (pl : MovingPlatform) (h0 : 0 ≤ pl.t) (h1 : pl.t ≤ 1) :
    0 ≤ (platform_tick sl i pl).t ∧ (platform_tick sl i pl).t ≤ 1 := by
  unfold platform_tick
  cases ha : pl.active with
  | true =>
    rw [moving_platform_system_active sl i.1 _ pl Vec2.zero [] (Or.inl ha)]
    exact clampQ_mem _
  | false =>
    cases hi : i.2 with
    | true =>
      rw [if_pos rfl, moving_platform_system_active sl i.1 [0] pl Vec2.zero []
        (Or.inr rfl)]
      exact clampQ_mem _
    | false =>
      rw [if_neg (by simp), moving_platform_system_inactive sl i.1 [] pl
        Vec2.zero [] ha rfl]
      exact ⟨h0, h1⟩

/-- Direction flips of a platform tick happen only with `t` exactly at an
endpoint: at `t = 1` turning backward, at `t = 0` turning forward. -/
theorem platform_tick_flip (sl : Slider) (i : ℚ × Bool) (pl : MovingPlatform)
    (h : (platform_tick sl i pl).movingBackward ≠ pl.movingBackward) :
    ((platform_tick sl i pl).movingBackward = true ∧
      (platform_tick sl i pl).t = 1) ∨
    ((platform_tick sl i pl).movingBackward = false ∧
      (platform_tick sl i pl).t = 0) := by
  unfold platform_tick at h ⊢
  have hactive : pl.active = true ∨
      (if i.2 then [0] else ([] : List ℕ)).isEmpty = false := by
    cases ha : pl.active with
    | true => exact Or.inl rfl
    | false =>
      cases hi : i.2 with
      | true => exact Or.inr (by rw [if_pos rfl]; rfl)
      | false =>
        rw [if_neg (by simp [hi]), moving_platform_system_inactive sl i.1 [] pl
          Vec2.zero [] ha rfl] at h
        exact absurd rfl h
  rw [moving_platform_system_active sl i.1 _ pl Vec2.zero [] hactive] at h ⊢
  by_cases h1 : 1 ≤ slider_t_next sl i.1 pl
  · left
    constructor
    · show (if 1 ≤ slider_t_next sl i.1 pl then true
        else if slider_t_next sl i.1 pl ≤ 0 then false
        else pl.movingBackward) = true
      rw [if_pos h1]
    · show slider_t_next sl i.1 pl = 1
      exact le_antisymm (clampQ_mem _).2 h1
  · by_cases h2 : slider_t_next sl i.1 pl ≤ 0
    · right
      constructor
      · show (if 1 ≤ slider_t_next sl i.1 pl then true
          else if slider_t_next sl i.1 pl ≤ 0 then false
          else pl.movingBackward) = false
        rw [if_neg h1, if_pos h2]
      · show slider_t_next sl i.1 pl = 0
        exact le_antisymm h2 (clampQ_mem _).1
    · exact absurd (by simp [if_neg h1, if_neg h2]) h

/-- C6: from the initial platform state (`t = 0`, moving forward, idle),
after any sequence of ticks the progress value stays within `[0,1]`, and
a further tick changes the direction flag only with `t` exactly at `1`
(turning backward) or exactly at `0` (turning forward). -/
theorem slider_progress_invariant_and_flips (sl : Slider)
    (ticks : List (ℚ × Bool)) (i : ℚ × Bool) :
    (0 ≤ (run_platform sl ticks MovingPlatform.start).t ∧
      (run_platform sl ticks MovingPlatform.start).t ≤ 1) ∧
    ((platform_tick sl i (run_platform sl ticks MovingPlatform.start)).movingBackward
        ≠ (run_platform sl ticks MovingPlatform.start).movingBackward →
      ((platform_tick sl i (run_platform sl ticks MovingPlatform.start)).movingBackward
          = true ∧
        (platform_tick sl i (run_platform sl ticks MovingPlatform.start)).t = 1) ∨
      ((platform_tick sl i (run_platform sl ticks MovingPlatform.start)).movingBackward
          = false ∧
        (platform_tick sl i (run_platform sl ticks MovingPlatform.start)).t = 0)) := by
  have hbounds : ∀ (ts : List (ℚ × Bool)) (pl : MovingPlatform),
      0 ≤ pl.t → pl.t ≤ 1 →
      0 ≤ (run_platform sl ts pl).t ∧ (run_platform sl ts pl).t ≤ 1 := by
    intro ts
    induction ts with
    | nil => intro pl h0 h1; exact ⟨h0, h1⟩
    | cons j rest ih =>
      intro pl h0 h1
      have hj := platform_tick_t_bounds sl j pl h0 h1
      exact ih (platform_tick sl j pl) hj.1 hj.2
  refine ⟨hbounds ticks MovingPlatform.start le_rfl zero_le_one, ?_⟩
  exact platform_tick_flip sl i (run_platform sl ticks MovingPlatform.start)

/-- Membership/count characterization of the carrying loop: with
duplicate-free contacts, the loop advances exactly the dynamic bodies
whose id is in contact, each once, and leaves every other body alone. -/
theorem nudgeBodies_eq_map (speed dt sign : ℚ) (contacts : List ℕ)
    (bodies : List Body) (h : contacts.Nodup) :
    nudgeBodies speed dt sign contacts bodies =
      bodies.map (fun b =>
        if b.id ∈ contacts ∧ b.rb = RigidBodyKind.dynamic then
          { b with pos := ⟨b.pos.x + speed * dt * sign, b.pos.y⟩ }
        else b) := by
  induction contacts generalizing bodies with
  | nil =>
    simp [nudgeBodies]
  | cons c cs ih =>
    rw [List.nodup_cons] at h
    obtain ⟨hc, hcs⟩ := h
    have hstep : nudgeBodies speed dt sign (c :: cs) bodies =
        nudgeBodies speed dt sign cs
          (bodies.map (fun b =>
            if b.id = c ∧ b.rb = RigidBodyKind.dynamic then
              { b with pos := ⟨b.pos.x + speed * dt * sign, b.pos.y⟩ }
            else b)) := rfl
    rw [hstep, ih _ hcs, List.map_map]
    refine List.map_congr_left ?_
    intro b _
    simp only [Function.comp_apply]
    by_cases hdyn : b.rb = RigidBodyKind.dynamic
    · by_cases hid : b.id = c
      · subst hid
        simp [hdyn, hc]
      · simp [hdyn, hid]
    · simp [hdyn]

/-- C2: on a tick of a slider platform that is active (already active, or
activated by a present contact), exactly the dynamic rigid bodies among
the platform's contacts have their horizontal position advanced by the
platform's signed speed times the tick delta, as a direct positional
write; non-dynamic bodies and bodies not in contact are never moved, and
an inactive platform moves nothing. -/
theorem slider_platform_carrying (sl : Slider) (dt : ℚ) (contacts : List ℕ)
    (pl : MovingPlatform) (pos : Vec2) (bodies : List Body)
    (hnd : contacts.Nodup) :
    ((pl.active = true ∨ contacts.isEmpty = false) →
      (moving_platform_system sl dt contacts pl pos bodies).2.2 =
        bodies.map (fun b =>
          if b.id ∈ contacts ∧ b.rb = RigidBodyKind.dynamic then
            { b with pos := ⟨b.pos.x + sl.speed * dt * slider_sign pl, b.pos.y⟩ }
          else b)) ∧
    (pl.active = false → contacts.isEmpty = true →
      (moving_platform_system sl dt contacts pl pos bodies).2.2 = bodies) := by
  constructor
  · intro hact
    rw [moving_platform_system_active sl dt contacts pl pos bodies hact]
    exact nudgeBodies_eq_map sl.speed dt (slider_sign pl) contacts bodies hnd
  · intro ha hc
    rw [moving_platform_system_inactive sl dt contacts pl pos bodies ha hc]

/-- C2 witness: a concrete active tick carrying one dynamic contact body,
leaving a static contact body and a non-contact dynamic body alone. -/
theorem slider_platform_carrying_witness :
    (moving_platform_system ⟨⟨0, 0⟩, ⟨4, 0⟩, 2, 1⟩ 1 [1, 2] MovingPlatform.start
        ⟨0, 0⟩ [⟨1, .dynamic, ⟨0, 0⟩⟩, ⟨2, .staticBody, ⟨5, 5⟩⟩,
          ⟨3, .dynamic, ⟨9, 9⟩⟩]).2.2 =
      [⟨1, .dynamic, ⟨2, 0⟩⟩, ⟨2, .staticBody, ⟨5, 5⟩⟩,
        ⟨3, .dynamic, ⟨9, 9⟩⟩] := by
  have h := (slider_platform_carrying ⟨⟨0, 0⟩, ⟨4, 0⟩, 2, 1⟩ 1 [1, 2]
    MovingPlatform.start ⟨0, 0⟩
    [⟨1, .dynamic, ⟨0, 0⟩⟩, ⟨2, .staticBody, ⟨5, 5⟩⟩, ⟨3, .dynamic, ⟨9, 9⟩⟩]
    (by decide)).1 (Or.inr rfl)
  rw [h]
  norm_num [MovingPlatform.start, slider_sign]
  decide

/-- The first loop of `checkpoint_system` maps `clearCp` over the list. -/
theorem cpPass_fst (es : List CpEntry) (i : ℕ) (act : Option ℕ)
    (evs : List Vec2) : (cpPass es i act evs).1 = es.map clearCp := by
  induction es generalizing i act evs with
  | nil => simp [cpPass]
  | cons e es ih => simp [cpPass, clearCp, ih]

/-- The save events of the first loop: one event per touched,
not-previously-active checkpoint, in list order, at the checkpoint's
position raised by the full player height. -/
theorem cpPass_events (es : List CpEntry) (i : ℕ) (act : Option ℕ)
    (evs : List Vec2) :
    (cpPass es i act evs).2.2 =
      evs ++ (es.filter (fun e => e.touched && !e.active)).map
        (fun e => ⟨e.pos.x, e.pos.y + PLAYER_SIZE.y⟩) := by
  induction es generalizing i act evs with
  | nil => simp [cpPass]
  | cons e es ih =>
    by_cases ht : e.touched = true <;> by_cases ha : e.active = true <;>
      simp [cpPass, ht, ha, ih, List.filter_cons]

/-- Once an active-checkpoint candidate is chosen, a tail without any
player contact leaves the choice unchanged. -/
theorem cpPass_act_untouched (es : List CpEntry) (i x : ℕ) (evs : List Vec2)
    (h : ∀ e ∈ es, e.touched = false) :
    (cpPass es i (some x) evs).2.1 = some x := by
  induction es generalizing i evs with
  | nil => simp [cpPass]
  | cons e es ih =>
    have he := h e (List.mem_cons_self e es)
    simp [cpPass, he]
    exact ih (i + 1) _ (fun e' he' => h e' (List.mem_cons_of_mem e he'))

/-- When exactly one checkpoint is touched, the first loop selects it
(whatever was previously active). -/
theorem cpPass_act_unique (es : List CpEntry) (i : ℕ) (act : Option ℕ)
    (evs : List Vec2) (k : ℕ) (hk : k < es.length)
    (htouch : (es.get ⟨k, hk⟩).touched = true)
    (huniq : ∀ (j : ℕ) (hj : j < es.length),
      (es.get ⟨j, hj⟩).touched = true → j = k) :
    (cpPass es i act evs).2.1 = some (i + k) := by
  induction es generalizing i act evs k with
  | nil => exact absurd hk (Nat.not_lt_zero k)
  | cons e es ih =>
    cases k with
    | zero =>
      have he : e.touched = true := htouch
      have hrest : ∀ e' ∈ es, e'.touched = false := by
        intro e' he'
        obtain ⟨⟨j, hj⟩, rfl⟩ := List.mem_iff_get.mp he'
        cases ht : (es.get ⟨j, hj⟩).touched with
        | false => rfl
        | true =>
          exact absurd (huniq (j + 1) (Nat.succ_lt_succ hj) ht) (Nat.succ_ne_zero j)
      simp [cpPass, he]
      rw [cpPass_act_untouched es (i + 1) i _ hrest]
    | succ k' =>
      have he : e.touched = false := by
        cases ht : e.touched with
        | false => rfl
        | true =>
          exact absurd (huniq 0 (Nat.succ_pos _) ht).symm (Nat.succ_ne_zero k')
      have hk' : k' < es.length := Nat.lt_of_succ_lt_succ hk
      have ht' : (es.get ⟨k', hk'⟩).touched = true := htouch
      have hu' : ∀ (j : ℕ) (hj : j < es.length),
          (es.get ⟨j, hj⟩).touched = true → j = k' := by
        intro j hj hjt
        have := huniq (j + 1) (Nat.succ_lt_succ hj) hjt
        omega
      simp [cpPass, he]
      rw [ih (i + 1) _ _ k' hk' ht' hu']
      congr 1
      omega

/-- `clearCp` always leaves the active flag unset. -/
theorem clearCp_not_active (e : CpEntry) : (clearCp e).active = false := by
  unfold clearCp
  by_cases h : e.active = true <;> simp [h]

/-- Counting actives distributes over cons. -/
theorem countActive_cons (e : CpEntry) (es : List CpEntry) :
    countActive (e :: es) = (if e.active then 1 else 0) + countActive es := by
  by_cases h : e.active = true <;> simp [countActive, List.filter_cons, h]
  omega

/-- After the clearing pass, nothing is active. -/
theorem countActive_map_clearCp (l : List CpEntry) :
    countActive (l.map clearCp) = 0 := by
  induction l with
  | nil => simp [countActive]
  | cons e es ih =>
    rw [List.map_cons, countActive_cons, ih, clearCp_not_active]
    simp

/-- Activating one index in an all-inactive list leaves at most one
active checkpoint. -/
theorem countActive_activate_le (l : List CpEntry) (i : ℕ)
    (h : countActive l = 0) : countActive (activate l i) ≤ 1 := by
  induction l generalizing i with
  | nil => simp [activate, countActive]
  | cons e es ih =>
    rw [countActive_cons] at h
    have he : e.active = false := by
      by_cases hb : e.active = true
      · rw [hb] at h; simp at h
      · exact Bool.of_not_eq_true hb
    have hes : countActive es = 0 := by
      rw [he] at h; simpa using h
    cases i with
    | zero =>
      rw [activate, countActive_cons]
      simp [hes]
    | succ i' =>
      rw [activate, countActive_cons, he]
      simpa using ih i' hes

/-- C1 (amended): every contact with a checkpoint that was not already
active issues a save request whose respawn position is the checkpoint's
position raised by the full player height `PLAYER_SIZE.y = 40` (not by
half of it): the emitted save positions are exactly
`checkpoint position + (0, PLAYER_SIZE.y)` for the touched, previously
inactive checkpoints, in order. -/
theorem checkpoint_save_positions_full_height (cps : List CpEntry) :
    (checkpoint_system cps).2 =
      (cps.filter (fun e => e.touched && !e.active)).map
        (fun e => ⟨e.pos.x, e.pos.y + PLAYER_SIZE.y⟩) := by
  have h := cpPass_events cps 0 none []
  unfold checkpoint_system
  rcases hr : cpPass cps 0 none [] with ⟨l, a, ev⟩
  rw [hr] at h
  simp only [List.nil_append] at h
  cases a <;> simpa using h

/-- C1 counterexample: an inactive checkpoint at the origin touched by
the player yields a save request at `(0, 40)` — the checkpoint position
plus the full player height — which differs from the position the claim
states, checkpoint position plus half the player height `(0, 20)`. -/
theorem checkpoint_save_half_height_cex :
    (checkpoint_system [⟨⟨0, 0⟩, false, false, true⟩]).2 =
      [⟨0, PLAYER_SIZE.y⟩] ∧
    (⟨0, PLAYER_SIZE.y⟩ : Vec2) ≠ ⟨0 + PLAYER_SIZE.y / 2, 0 + 0⟩ ∧
    (⟨0, PLAYER_SIZE.y⟩ : Vec2) ≠ ⟨0 + 0, 0 + PLAYER_SIZE.y / 2⟩ := by
  refine ⟨?_, ?_, ?_⟩
  · norm_num [checkpoint_system, cpPass, activate, PLAYER_SIZE]
  · intro h
    rw [Vec2.mk.injEq] at h
    norm_num [PLAYER_SIZE] at h
  · intro h
    rw [Vec2.mk.injEq] at h
    norm_num [PLAYER_SIZE] at h

/-- C8: after every run of `checkpoint_system` at most one checkpoint is
active; and when the player touches exactly one checkpoint, every
previously active checkpoint is deactivated and the touched one becomes
the single active checkpoint. -/
theorem checkpoint_at_most_one_active :
    (∀ cps : List CpEntry, countActive (checkpoint_system cps).1 ≤ 1) ∧
    (∀ (cps : List CpEntry) (k : ℕ) (hk : k < cps.length),
      (cps.get ⟨k, hk⟩).touched = true →
      (∀ (j : ℕ) (hj : j < cps.length), (cps.get ⟨j, hj⟩).touched = true → j = k) →
      (checkpoint_system cps).1 = activate (cps.map clearCp) k) := by
  constructor
  · intro cps
    have hfst := cpPass_fst cps 0 none []
    unfold checkpoint_system
    rcases hr : cpPass cps 0 none [] with ⟨l, a, ev⟩
    rw [hr] at hfst
    simp only at hfst
    subst hfst
    cases a with
    | none => simp [countActive_map_clearCp]
    | some i =>
      simpa using countActive_activate_le (cps.map clearCp) i
        (countActive_map_clearCp cps)
  · intro cps k hk htouch huniq
    have hact := cpPass_act_unique cps 0 none [] k hk htouch huniq
    have hfst := cpPass_fst cps 0 none []
    unfold checkpoint_system
    rcases hr : cpPass cps 0 none [] with ⟨l, a, ev⟩
    rw [hr] at hact hfst
    simp only at hact hfst
    subst hfst
    subst hact
    simp

/- ## Session-level lemmas -/

/-- Frame conditions of `setup_level_content`: whatever event it handles,
it never touches the game state, the stopwatch, the death counter or the
save data, and it zeroes the player's velocity component when present. -/
theorem setup_level_content_frame (ev : LevelRestartEvent) (w w' : GameWorld)
    (h : setup_level_content ev w = some w') :
    w'.gs = w.gs ∧ w'.stopwatch = w.stopwatch ∧ w'.deaths = w.deaths ∧
    w'.saveData = w.saveData ∧
    ∃ p p', w.player = some p ∧ w'.player = some p' ∧
      p'.vel = p.vel.map (fun _ => Vec2.zero) := by
  unfold setup_level_content at h
  cases hp : w.player with
  | none => rw [hp] at h; exact absurd h (by simp)
  | some p =>
    rw [hp] at h
    cases ev with
    | restoreLastSave =>
      cases hsd : w.saveData with
      | some sd =>
        rw [hsd] at h
        simp only [Option.some.injEq] at h
        subst h
        simp [hp]
      | none =>
        rw [hsd] at h
        cases hgs : w.gs with
        | menu =>
          rw [hgs] at h
          simp only [Option.some.injEq] at h
          subst h
          simp [hp]
        | level idx paused =>
          rw [hgs] at h
          dsimp only at h
          cases hls : levelScript idx with
          | none => rw [hls] at h; exact absurd h (by simp)
          | some ops =>
            rw [hls] at h
            simp only [Option.some.injEq] at h
            subst h
            simp [hp]
    | fullReset idx =>
      dsimp only at h
      cases hls : levelScript idx with
      | none => rw [hls] at h; exact absurd h (by simp)
      | some ops =>
        rw [hls] at h
        simp only [Option.some.injEq] at h
        subst h
        simp [hp]

/-- Evaluation of `setup_level_content` on `FullReset(idx)` with a valid
level script and a present player: position to the origin, velocity
zeroed, all old spikes/checkpoints replaced by the script's permanent
entities, and a fresh root holding exactly the script's ephemeral
entities. -/
theorem setup_level_content_full_reset (idx : ℕ) (w : GameWorld)
    (ops : List GenOp) (hls : levelScript idx = some ops) (p : PlayerState)
    (hp : w.player = some p) :
    setup_level_content (.fullReset idx) w =
      some { w with
             player := some ⟨Vec2.zero, p.vel.map (fun _ => Vec2.zero)⟩,
             root := some (LevelGenerator.generate true idx ops).1,
             permanents := (LevelGenerator.generate true idx ops).2 } := by
  unfold setup_level_content
  rw [hp]
  dsimp only
  rw [hls]

/-- Evaluation of `setup_level_content` on `RestoreLastSave` when a save
exists: the player moves to the saved position with zeroed velocity and
the snapshot becomes the new root's children; permanents are untouched. -/
theorem setup_level_content_restore_some (w : GameWorld) (sd : Save)
    (hsd : w.saveData = some sd) (p : PlayerState) (hp : w.player = some p) :
    setup_level_content .restoreLastSave w =
      some { w with
             player := some ⟨sd.position, p.vel.map (fun _ => Vec2.zero)⟩,
             root := some sd.scene } := by
  unfold setup_level_content
  rw [hp]
  dsimp only
  rw [hsd]

/-- Evaluation of `setup_level_content` on `RestoreLastSave` with no save
while in a level with a valid script: not an error — the level is rebuilt
in ephemeral-only mode with the player at the origin. -/
theorem setup_level_content_restore_none (w : GameWorld) (idx : ℕ)
    (paused : Bool) (ops : List GenOp) (hsd : w.saveData = none)
    (hgs : w.gs = .level idx paused) (hls : levelScript idx = some ops)
    (p : PlayerState) (hp : w.player = some p) :
    setup_level_content .restoreLastSave w =
      some { w with
             player := some ⟨Vec2.zero, p.vel.map (fun _ => Vec2.zero)⟩,
             root := some (LevelGenerator.generate false idx ops).1,
             permanents := w.permanents ++
               (LevelGenerator.generate false idx ops).2 } := by
  unfold setup_level_content
  rw [hp]
  dsimp only
  rw [hsd]
  dsimp only
  rw [hgs]
  dsimp only
  rw [hls]

/-- With permanent entities disabled, a generation run never touches the
permanent list: `applyOp false` leaves it unchanged. -/
theorem applyOp_false_permanents (acc : GenAcc) (op : GenOp) :
    (applyOp false acc op).permanents = acc.permanents := by
  cases op <;> simp [applyOp]

/-- Ephemeral-only generation produces no permanent entities. -/
theorem generate_ephemeral_no_permanents (idx : ℕ) (ops : List GenOp) :
    (LevelGenerator.generate false idx ops).2 = [] := by
  unfold LevelGenerator.generate
  have key : ∀ (l : List GenOp) (acc : GenAcc),
      (l.foldl (applyOp false) acc).permanents = acc.permanents := by
    intro l
    induction l with
    | nil => intro acc; rfl
    | cons op l ih =>
      intro acc
      rw [List.foldl_cons, ih, applyOp_false_permanents]
  dsimp only
  rw [key]

/-- The session invariant: outside a level there is no save and the
stopwatch resource is gone or zero (it is removed on level exit and only
ticks in a level); a present stopwatch is nonnegative; and inside a level
the player exists and carries a velocity component. -/
def SessionInv (s : GameWorld) : Prop :=
  (s.gs = GState.menu →
    s.saveData = none ∧ (s.stopwatch = none ∨ s.stopwatch = some 0)) ∧
  (∀ q : ℚ, s.stopwatch = some q → 0 ≤ q) ∧
  (∀ (idx : ℕ) (p : Bool), s.gs = GState.level idx p →
    ∃ (pp v : Vec2), s.player = some ⟨pp, some v⟩)

/-- The initial world satisfies the session invariant. -/
theorem sessionInv_init : SessionInv initWorld := by
  refine ⟨fun _ => ⟨rfl, Or.inr rfl⟩, ?_, ?_⟩
  · intro q hq
    simp only [initWorld] at hq
    injection hq with hq
    rw [← hq]
  · intro idx p h
    simp [initWorld] at h


/-- A player whose velocity component was present before the restart has
the zero velocity afterwards. -/
theorem player_vel_some_zero (p p' : PlayerState) (v : Vec2)
    (hpv : p.vel = some v)
    (hv' : p'.vel = p.vel.map (fun _ => Vec2.zero)) :
    ∃ pp : Vec2, p' = ⟨pp, some Vec2.zero⟩ := by
  refine ⟨p'.pos, ?_⟩
  cases p' with
  | mk a b =>
    simp only [PlayerState.mk.injEq, true_and]
    have hb : b = Option.map (fun _ => Vec2.zero) p.vel := hv'
    rw [hb, hpv]
    rfl

/-- Every session step preserves the session invariant. -/
theorem sessionInv_step (s s' : GameWorld) (st : Step)
    (h : step st s = some s') (hinv : SessionInv s) : SessionInv s' := by
  obtain ⟨hmenu, hnn, hplayer⟩ := hinv
  cases st with
  | enterLevel idx =>
    simp only [step] at h
    cases hgs : s.gs with
    | level i p => rw [hgs] at h; simp at h
    | menu =>
      rw [hgs] at h
      dsimp only at h
      obtain ⟨hgs', hsw', hd', hsd', p, p', hp, hp', hv'⟩ :=
        setup_level_content_frame _ _ _ h
      have hgs2 : s'.gs = GState.level idx false := hgs'
      have hsw2 : s'.stopwatch = some (0 : ℚ) := hsw'
      have hp2 : some (⟨Vec2.zero, some Vec2.zero⟩ : PlayerState) = some p := hp
      injection hp2 with hp2
      refine ⟨?_, ?_, ?_⟩
      · intro hm
        rw [hgs2] at hm
        simp at hm
      · intro q hq
        rw [hsw2] at hq
        injection hq with hq
        rw [← hq]
      · intro i pb _
        obtain ⟨pz, hps⟩ :=
          player_vel_some_zero p p' Vec2.zero (by rw [← hp2]) hv'
        exact ⟨pz, Vec2.zero, by rw [hp', hps]⟩
  | tick dt =>
    simp only [step] at h
    cases hgs : s.gs with
    | menu => rw [hgs] at h; simp at h
    | level i p =>
      rw [hgs] at h
      cases p with
      | true => simp at h
      | false =>
        cases hsw : s.stopwatch with
        | none => rw [hsw] at h; simp at h
        | some q =>
          rw [hsw] at h
          dsimp only at h
          by_cases hdt : 0 ≤ dt
          · rw [if_pos hdt] at h
            injection h with h
            subst h
            refine ⟨?_, ?_, ?_⟩
            · intro hm
              have hm2 : GState.level i false = GState.menu := hm
              simp at hm2
            · intro q' hq'
              have hq2 : some (q + dt) = some q' := hq'
              injection hq2 with hq2
              rw [← hq2]
              exact add_nonneg (hnn q hsw) hdt
            · intro i' p' _
              exact hplayer i false hgs
          · rw [if_neg hdt] at h
            simp at h
  | checkpointSave pos =>
    simp only [step] at h
    cases hgs : s.gs with
    | menu => rw [hgs] at h; simp at h
    | level i p =>
      rw [hgs] at h
      cases p with
      | true => simp at h
      | false =>
        cases hrt : s.root with
        | none => rw [hrt] at h; simp at h
        | some scene =>
          rw [hrt] at h
          dsimp only at h
          injection h with h
          subst h
          refine ⟨?_, ?_, ?_⟩
          · intro hm
            have hm2 : GState.level i false = GState.menu := hm
            simp at hm2
          · intro q hq
            exact hnn q hq
          · intro i' p' _
            exact hplayer i false hgs
  | death =>
    simp only [step] at h
    cases hgs : s.gs with
    | menu => rw [hgs] at h; simp at h
    | level i p =>
      rw [hgs] at h
      cases p with
      | true => simp at h
      | false =>
        dsimp only at h
        cases hm : setup_level_content .restoreLastSave s with
        | none => rw [hm] at h; simp at h
        | some w1 =>
          rw [hm] at h
          simp only [Option.map_some', Option.some.injEq] at h
          subst h
          obtain ⟨hgs', hsw', hd', hsd', pp, pp', hp, hp', hv'⟩ :=
            setup_level_content_frame _ _ _ hm
          refine ⟨?_, ?_, ?_⟩
          · intro hmx
            have hm2 : w1.gs = GState.menu := hmx
            rw [hgs', hgs] at hm2
            simp at hm2
          · intro q hq
            have hq2 : w1.stopwatch = some q := hq
            rw [hsw'] at hq2
            exact hnn q hq2
          · intro i' p' _
            obtain ⟨ppx, v, hpx⟩ := hplayer i false hgs
            rw [hpx] at hp
            injection hp with hp
            obtain ⟨pz, hps⟩ := player_vel_some_zero pp pp' v (by rw [← hp]) hv'
            refine ⟨pz, Vec2.zero, ?_⟩
            show w1.player = some ⟨pz, some Vec2.zero⟩
            rw [hp', hps]
  | restoreKey =>
    simp only [step] at h
    cases hgs : s.gs with
    | menu => rw [hgs] at h; simp at h
    | level i p =>
      rw [hgs] at h
      cases p with
      | true => simp at h
      | false =>
        dsimp only at h
        obtain ⟨hgs', hsw', hd', hsd', pp, pp', hp, hp', hv'⟩ :=
          setup_level_content_frame _ _ _ h
        refine ⟨?_, ?_, ?_⟩
        · intro hmx
          rw [hgs', hgs] at hmx
          simp at hmx
        · intro q hq
          rw [hsw'] at hq
          exact hnn q hq
        · intro i' p' _
          obtain ⟨ppx, v, hpx⟩ := hplayer i false hgs
          rw [hpx] at hp
          injection hp with hp
          obtain ⟨pz, hps⟩ := player_vel_some_zero pp pp' v (by rw [← hp]) hv'
          exact ⟨pz, Vec2.zero, by rw [hp', hps]⟩
  | complete =>
    simp only [step] at h
    cases hgs : s.gs with
    | menu => rw [hgs] at h; simp at h
    | level i p =>
      rw [hgs] at h
      cases p with
      | true => simp at h
      | false =>
        cases hsw : s.stopwatch with
        | none => rw [hsw] at h; simp at h
        | some q =>
          rw [hsw] at h
          dsimp only at h
          obtain ⟨hgs', hsw', hd', hsd', pp, pp', hp, hp', hv'⟩ :=
            setup_level_content_frame _ _ _ h
          have hgs2 : s'.gs = GState.level (i + 1) false := hgs'
          have hsw2 : s'.stopwatch = some (0 : ℚ) := hsw'
          have hp2 : s.player = some pp := hp
          refine ⟨?_, ?_, ?_⟩
          · intro hmx
            rw [hgs2] at hmx
            simp at hmx
          · intro q' hq'
            rw [hsw2] at hq'
            injection hq' with hq'
            rw [← hq']
          · intro i' p' _
            obtain ⟨ppx, v, hpx⟩ := hplayer i false hgs
            rw [hpx] at hp2
            injection hp2 with hp2
            obtain ⟨pz, hps⟩ :=
              player_vel_some_zero pp pp' v (by rw [← hp2]) hv'
            exact ⟨pz, Vec2.zero, by rw [hp', hps]⟩
  | pauseToggle =>
    simp only [step] at h
    cases hgs : s.gs with
    | menu => rw [hgs] at h; simp at h
    | level i p =>
      rw [hgs] at h
      dsimp only at h
      injection h with h
      subst h
      refine ⟨?_, ?_, ?_⟩
      · intro hm
        have hm2 : GState.level i (!p) = GState.menu := hm
        simp at hm2
      · intro q hq
        exact hnn q hq
      · intro i' p' _
        exact hplayer i p hgs
  | exitLevel =>
    simp only [step] at h
    cases hgs : s.gs with
    | menu => rw [hgs] at h; simp at h
    | level i p =>
      rw [hgs] at h
      dsimp only at h
      injection h with h
      subst h
      refine ⟨?_, ?_, ?_⟩
      · intro _
        exact ⟨rfl, Or.inl rfl⟩
      · intro q hq
        have hq2 : (none : Option ℚ) = some q := hq
        simp at hq2
      · intro i' p' hgs'
        have hg2 : GState.menu = GState.level i' p' := hgs'
        simp at hg2

/-- Every reachable session state satisfies the invariant. -/
theorem sessionInv_reachable (s : GameWorld) (h : Reachable s) :
    SessionInv s := by
  induction h with
  | init => exact sessionInv_init
  | next s s' st hr hstep ih => exact sessionInv_step s s' st hstep ih

/-- An observable reset of the elapsed-level-time counter: the stopwatch
held a nonzero elapsed time and afterwards holds zero. -/
def resetsTime (s s' : GameWorld) : Prop :=
  (∃ q : ℚ, s.stopwatch = some q ∧ q ≠ 0) ∧ s'.stopwatch = some 0

/-- An observable reset of the death counter: it was nonzero and
afterwards is zero. -/
def resetsDeaths (s s' : GameWorld) : Prop :=
  s.deaths ≠ 0 ∧ s'.deaths = 0

/-- C4: along reachable session states, only the level-completion
transition resets the elapsed-time or death counters; death, checkpoint
restore, checkpoint saving, pausing, entering a level and exiting a
level never do — and completion does reset both. -/
theorem counters_reset_only_on_completion (s s' : GameWorld) (st : Step)
    (hr : Reachable s) (h : step st s = some s') :
    (st ≠ .complete → ¬ resetsTime s s' ∧ ¬ resetsDeaths s s') ∧
    (st = .complete → s'.stopwatch = some 0 ∧ s'.deaths = 0) := by
  obtain ⟨hmenu, hnn, hplayer⟩ := sessionInv_reachable s hr
  cases st with
  | enterLevel idx =>
    refine ⟨fun _ => ?_, fun heq => by simp at heq⟩
    simp only [step] at h
    cases hgs : s.gs with
    | level i p => rw [hgs] at h; simp at h
    | menu =>
      rw [hgs] at h
      dsimp only at h
      obtain ⟨hgs', hsw', hd', hsd', p, p', hp, hp', hv'⟩ :=
        setup_level_content_frame _ _ _ h
      have hd2 : s'.deaths = s.deaths := hd'
      constructor
      · rintro ⟨⟨q, hq, hqne⟩, _⟩
        rcases (hmenu hgs).2 with hnone | hzero
        · rw [hnone] at hq; exact absurd hq (by simp)
        · rw [hzero] at hq
          injection hq with hq
          exact hqne hq.symm
      · rintro ⟨hne, h0⟩
        rw [hd2] at h0
        exact hne h0
  | tick dt =>
    refine ⟨fun _ => ?_, fun heq => by simp at heq⟩
    simp only [step] at h
    cases hgs : s.gs with
    | menu => rw [hgs] at h; simp at h
    | level i p =>
      rw [hgs] at h
      cases p with
      | true => simp at h
      | false =>
        cases hsw : s.stopwatch with
        | none => rw [hsw] at h; simp at h
        | some q =>
          rw [hsw] at h
          dsimp only at h
          by_cases hdt : 0 ≤ dt
          · rw [if_pos hdt] at h
            injection h with h
            subst h
            constructor
            · rintro ⟨⟨q0, hq0, hq0ne⟩, h0⟩
              rw [hsw] at hq0
              injection hq0 with hq0
              have h0' : some (q + dt) = some (0 : ℚ) := h0
              injection h0' with h0'
              have hq' : 0 ≤ q := hnn q hsw
              refine hq0ne ?_
              rw [← hq0]
              linarith
            · rintro ⟨hne, h0⟩
              exact hne h0
          · rw [if_neg hdt] at h
            simp at h
  | checkpointSave pos =>
    refine ⟨fun _ => ?_, fun heq => by simp at heq⟩
    simp only [step] at h
    cases hgs : s.gs with
    | menu => rw [hgs] at h; simp at h
    | level i p =>
      rw [hgs] at h
      cases p with
      | true => simp at h
      | false =>
        cases hrt : s.root with
        | none => rw [hrt] at h; simp at h
        | some scene =>
          rw [hrt] at h
          dsimp only at h
          injection h with h
          subst h
          constructor
          · rintro ⟨⟨q0, hq0, hq0ne⟩, h0⟩
            have h0' : s.stopwatch = some 0 := h0
            rw [hq0] at h0'
            injection h0' with h0'
            exact hq0ne h0'
          · rintro ⟨hne, h0⟩
            exact hne h0
  | death =>
    refine ⟨fun _ => ?_, fun heq => by simp at heq⟩
    simp only [step] at h
    cases hgs : s.gs with
    | menu => rw [hgs] at h; simp at h
    | level i p =>
      rw [hgs] at h
      cases p with
      | true => simp at h
      | false =>
        dsimp only at h
        cases hm : setup_level_content .restoreLastSave s with
        | none => rw [hm] at h; simp at h
        | some w1 =>
          rw [hm] at h
          simp only [Option.map_some', Option.some.injEq] at h
          subst h
          obtain ⟨hgs', hsw', hd', hsd', pp, pp', hp, hp', hv'⟩ :=
            setup_level_content_frame _ _ _ hm
          constructor
          · rintro ⟨⟨q0, hq0, hq0ne⟩, h0⟩
            have h0' : w1.stopwatch = some 0 := h0
            rw [hsw', hq0] at h0'
            injection h0' with h0'
            exact hq0ne h0'
          · rintro ⟨hne, h0⟩
            have h0' : w1.deaths + 1 = 0 := h0
            exact Nat.succ_ne_zero _ h0'
  | restoreKey =>
    refine ⟨fun _ => ?_, fun heq => by simp at heq⟩
    simp only [step] at h
    cases hgs : s.gs with
    | menu => rw [hgs] at h; simp at h
    | level i p =>
      rw [hgs] at h
      cases p with
      | true => simp at h
      | false =>
        dsimp only at h
        obtain ⟨hgs', hsw', hd', hsd', pp, pp', hp, hp', hv'⟩ :=
          setup_level_content_frame _ _ _ h
        constructor
        · rintro ⟨⟨q0, hq0, hq0ne⟩, h0⟩
          rw [hsw', hq0] at h0
          injection h0 with h0
          exact hq0ne h0
        · rintro ⟨hne, h0⟩
          rw [hd'] at h0
          exact hne h0
  | complete =>
    refine ⟨fun hne => absurd rfl hne, fun _ => ?_⟩
    simp only [step] at h
    cases hgs : s.gs with
    | menu => rw [hgs] at h; simp at h
    | level i p =>
      rw [hgs] at h
      cases p with
      | true => simp at h
      | false =>
        cases hsw : s.stopwatch with
        | none => rw [hsw] at h; simp at h
        | some q =>
          rw [hsw] at h
          dsimp only at h
          obtain ⟨hgs', hsw', hd', hsd', pp, pp', hp, hp', hv'⟩ :=
            setup_level_content_frame _ _ _ h
          exact ⟨hsw', hd'⟩
  | pauseToggle =>
    refine ⟨fun _ => ?_, fun heq => by simp at heq⟩
    simp only [step] at h
    cases hgs : s.gs with
    | menu => rw [hgs] at h; simp at h
    | level i p =>
      rw [hgs] at h
      dsimp only at h
      injection h with h
      subst h
      constructor
      · rintro ⟨⟨q0, hq0, hq0ne⟩, h0⟩
        have h0' : s.stopwatch = some 0 := h0
        rw [hq0] at h0'
        injection h0' with h0'
        exact hq0ne h0'
      · rintro ⟨hne, h0⟩
        exact hne h0
  | exitLevel =>
    refine ⟨fun _ => ?_, fun heq => by simp at heq⟩
    simp only [step] at h
    cases hgs : s.gs with
    | menu => rw [hgs] at h; simp at h
    | level i p =>
      rw [hgs] at h
      dsimp only at h
      injection h with h
      subst h
      constructor
      · rintro ⟨_, h0⟩
        have h0' : (none : Option ℚ) = some 0 := h0
        simp at h0'
      · rintro ⟨hne, h0⟩
        exact hne h0

/-- The world after entering level 1 from the main menu. -/
def worldAfterEnter1 : GameWorld :=
  { gs := .level 1 false, stopwatch := some 0, deaths := 0, saveData := none,
    root := some [Entity.levelText 1, Entity.platform ⟨0, -30⟩ 1000,
      Entity.sliderPlatform ⟨650, -30⟩ ⟨1150, -30⟩ 200 250],
    permanents := [Entity.checkpoint ⟨200, -30⟩ false],
    player := some ⟨Vec2.zero, some Vec2.zero⟩ }

/-- Concrete evaluation: entering level 1 from the initial world. -/
theorem step_enterLevel_one :
    step (.enterLevel 1) initWorld = some worldAfterEnter1 := by
  norm_num [step, initWorld, setup_level_content, levelScript, level1Ops,
    LevelGenerator.generate, applyOp, worldAfterEnter1, Vec2.zero]

/-- C4 witness: entering level 1 from the initial world resets neither
counter. -/
theorem counters_reset_only_on_completion_witness :
    ¬ resetsTime initWorld worldAfterEnter1 ∧
    ¬ resetsDeaths initWorld worldAfterEnter1 :=
  (counters_reset_only_on_completion initWorld worldAfterEnter1
    (.enterLevel 1) Reachable.init step_enterLevel_one).1 (by simp)

/-- The occasions on which a `FullReset(k)` event is emitted and handled:
entering the in-level state (`setup_level`), and level completion
(`on_level_completed`, which advances to level `k = index + 1`). -/
def emits_full_reset (st : Step) (s : GameWorld) (k : ℕ) : Prop :=
  st = .enterLevel k ∨
  (st = .complete ∧ ∃ (i : ℕ) (p : Bool), s.gs = .level i p ∧ k = i + 1)

/-- C3: after any reachable step that emits and handles `FullReset(k)`
(with `k` a valid level index), the save data is empty, the world's level
root holds exactly script `k`'s ephemeral entities, the permanent
entities are exactly script `k`'s spikes and checkpoints (all earlier
ones having been despawned), and the player sits at the origin with zero
velocity. -/
theorem full_reset_world_state (s s' : GameWorld) (st : Step) (k : ℕ)
    (ops : List GenOp) (hr : Reachable s) (h : step st s = some s')
    (hemit : emits_full_reset st s k) (hls : levelScript k = some ops) :
    s'.saveData = none ∧
    s'.root = some (LevelGenerator.generate true k ops).1 ∧
    s'.permanents = (LevelGenerator.generate true k ops).2 ∧
    ∃ pl : PlayerState, s'.player = some pl ∧ pl.pos = Vec2.zero ∧
      pl.vel = some Vec2.zero := by
  obtain ⟨hmenu, hnn, hplayer⟩ := sessionInv_reachable s hr
  rcases hemit with rfl | ⟨rfl, i, p, hgs, rfl⟩
  · simp only [step] at h
    cases hgs : s.gs with
    | level i p => rw [hgs] at h; simp at h
    | menu =>
      rw [hgs] at h
      dsimp only at h
      rw [setup_level_content_full_reset k _ ops hls
        ⟨Vec2.zero, some Vec2.zero⟩ rfl] at h
      injection h with h
      subst h
      refine ⟨?_, rfl, rfl, ⟨Vec2.zero, some Vec2.zero⟩, rfl, rfl, rfl⟩
      exact (hmenu hgs).1
  · simp only [step] at h
    rw [hgs] at h
    cases p with
    | true => simp at h
    | false =>
      cases hsw : s.stopwatch with
      | none => rw [hsw] at h; simp at h
      | some q =>
        rw [hsw] at h
        dsimp only at h
        obtain ⟨ppx, v, hpx⟩ := hplayer i false hgs
        rw [setup_level_content_full_reset (i + 1)
          { s with
            gs := .level (i + 1) false,
            stopwatch := some 0,
            deaths := 0,
            saveData := none } ops hls ⟨ppx, some v⟩ hpx] at h
        injection h with h
        subst h
        exact ⟨rfl, rfl, rfl, ⟨Vec2.zero, some Vec2.zero⟩, rfl, rfl, rfl⟩

/-- C3 witness: entering level 1 from the initial world. -/
theorem full_reset_world_state_witness :
    worldAfterEnter1.saveData = none ∧
    worldAfterEnter1.root = some (LevelGenerator.generate true 1 level1Ops).1 ∧
    worldAfterEnter1.permanents =
      (LevelGenerator.generate true 1 level1Ops).2 ∧
    ∃ pl : PlayerState, worldAfterEnter1.player = some pl ∧
      pl.pos = Vec2.zero ∧ pl.vel = some Vec2.zero :=
  full_reset_world_state initWorld worldAfterEnter1 (.enterLevel 1) 1
    level1Ops Reachable.init step_enterLevel_one (Or.inl rfl) rfl

/-- C7: handling `RestoreLastSave` in a level with a valid script and a
present player always succeeds: with a save, the player is placed at the
exact saved respawn position and the saved subtree becomes the children
of the fresh level root; with no save this is not an error — the level is
regenerated ephemeral-only with the player at the origin; in both cases
the permanent entities, the elapsed-time counter and the death counter
are untouched. -/
theorem restore_last_save_behavior (w : GameWorld) (idx : ℕ) (paused : Bool)
    (ops : List GenOp) (p : PlayerState)
    (hgs : w.gs = .level idx paused) (hls : levelScript idx = some ops)
    (hp : w.player = some p) :
    ∃ w', setup_level_content .restoreLastSave w = some w' ∧
      (∀ sd, w.saveData = some sd →
        w'.root = some sd.scene ∧
        ∃ pl, w'.player = some pl ∧ pl.pos = sd.position) ∧
      (w.saveData = none →
        w'.root = some (LevelGenerator.generate false idx ops).1 ∧
        ∃ pl, w'.player = some pl ∧ pl.pos = Vec2.zero) ∧
      w'.permanents = w.permanents ∧
      w'.stopwatch = w.stopwatch ∧ w'.deaths = w.deaths := by
  cases hsd : w.saveData with
  | some sd =>
    refine ⟨_, setup_level_content_restore_some w sd hsd p hp,
      ?_, ?_, rfl, rfl, rfl⟩
    · intro sd' hsd'
      injection hsd' with hsd'
      subst hsd'
      exact ⟨rfl, _, rfl, rfl⟩
    · intro hnone
      exact absurd hnone (by simp)
  | none =>
    refine ⟨_,
      setup_level_content_restore_none w idx paused ops hsd hgs hls p hp,
      ?_, ?_, ?_, rfl, rfl⟩
    · intro sd' hsd'
      exact absurd hsd' (by simp)
    · intro _
      exact ⟨rfl, _, rfl, rfl⟩
    · show w.permanents ++ (LevelGenerator.generate false idx ops).2 =
        w.permanents
      rw [generate_ephemeral_no_permanents]
      exact List.append_nil _

/-- A concrete in-level world holding a save, for the C7 witness. -/
def c7World : GameWorld :=
  { gs := .level 1 false, stopwatch := some 5, deaths := 2,
    saveData := some ⟨[Entity.ending ⟨3, 4⟩], ⟨7, 8⟩⟩, root := some [],
    permanents := [Entity.spike ⟨1, 1⟩ none],
    player := some ⟨⟨9, 9⟩, some ⟨2, 2⟩⟩ }

/-- C7 witness: restoring the save of `c7World`. -/
theorem restore_last_save_behavior_witness :
    ∃ w', setup_level_content .restoreLastSave c7World = some w' ∧
      (∀ sd, c7World.saveData = some sd →
        w'.root = some sd.scene ∧
        ∃ pl, w'.player = some pl ∧ pl.pos = sd.position) ∧
      (c7World.saveData = none →
        w'.root = some (LevelGenerator.generate false 1 level1Ops).1 ∧
        ∃ pl, w'.player = some pl ∧ pl.pos = Vec2.zero) ∧
      w'.permanents = c7World.permanents ∧
      w'.stopwatch = c7World.stopwatch ∧ w'.deaths = c7World.deaths :=
  restore_last_save_behavior c7World 1 false level1Ops
    ⟨⟨9, 9⟩, some ⟨2, 2⟩⟩ rfl rfl rfl

/-- C10: whenever `setup_level_content` handles any restart event
(`RestoreLastSave` or `FullReset`) for a player whose linear-velocity
component exists, the resulting player velocity is zero — no restart
preserves pre-restart momentum. -/
theorem restart_zeroes_velocity (w w' : GameWorld) (ev : LevelRestartEvent)
    (p : PlayerState) (v : Vec2) (hp : w.player = some p)
    (hv : p.vel = some v) (h : setup_level_content ev w = some w') :
    ∃ p', w'.player = some p' ∧ p'.vel = some Vec2.zero := by
  obtain ⟨hgs', hsw', hd', hsd', pp, pp', hpx, hp', hv'⟩ :=
    setup_level_content_frame _ _ _ h
  rw [hp] at hpx
  injection hpx with hpx
  subst hpx
  refine ⟨pp', hp', ?_⟩
  rw [hv', hv]
  rfl

/-- C10 witness: restoring the save of `c7World` zeroes the player's
velocity `(2, 2)`. -/
theorem restart_zeroes_velocity_witness :
    ∃ w', setup_level_content .restoreLastSave c7World = some w' ∧
      ∃ p', w'.player = some p' ∧ p'.vel = some Vec2.zero := by
  refine ⟨_, setup_level_content_restore_some c7World
    ⟨[Entity.ending ⟨3, 4⟩], ⟨7, 8⟩⟩ rfl ⟨⟨9, 9⟩, some ⟨2, 2⟩⟩ rfl, ?_⟩
  exact restart_zeroes_velocity c7World _ .restoreLastSave
    ⟨⟨9, 9⟩, some ⟨2, 2⟩⟩ ⟨2, 2⟩ rfl rfl
    (setup_level_content_restore_some c7World
      ⟨[Entity.ending ⟨3, 4⟩], ⟨7, 8⟩⟩ rfl ⟨⟨9, 9⟩, some ⟨2, 2⟩⟩ rfl)
